import Mathlib

/-! Verification of the yukino-net router core against its specification.

The definitions below are a shallow embedding of the Go sources:
* `libraries/router/bin.go` — the frame codec (`writeBytes`, `readBytes`,
  `writeFrame`, `readFrame`);
* `libraries/router/router.go` — the Router's Listen/Dial/Bridge handlers;
* the managed-connection file of `libraries/router` — `probe`;
* `libraries/router/client.go` — the dialer client `Client.Dial` and the
  listener client's control loop `Listener.spawnController`.

Byte streams are modelled as `List Nat` (each element a byte value), machine
integers as `Nat` with explicit `% 2 ^ w` where the Go code truncates, and
fallible reads as `Except`-valued functions that also return the unread
remainder of the stream (Go readers consume bytes as they go, so an error
raised after a field was read leaves the stream past that field).
-/

namespace YukinoNet

/-- Frame type constants from `libraries/router/proto`: `Dial = 0`,
`Listen = 1`, `Bridge = 2`, `Nop = 3`, `Close = 4`. -/
def protoDial : Nat := 0

def protoListen : Nat := 1

def protoBridge : Nat := 2

def protoNop : Nat := 3

def protoClose : Nat := 4

/-- Constant `MaxChannelNameLength` from `bin.go`. -/
def MaxChannelNameLength : Nat := 256

/-- Structure `Frame` from `bin.go`: a type byte, a `uint64` connection id and a
channel string (modelled as its byte sequence). -/
structure Frame where
  type_ : Nat
  ConnectionID : Nat
  Channel : List Nat
  deriving DecidableEq, Repr

/-- A frame is well formed when its fields fit the Go machine types
(`byte`, `uint64`, `string` of bytes). -/
def Frame.WF (f : Frame) : Prop :=
  f.type_ < 256 ∧ f.ConnectionID < 2 ^ 64 ∧ ∀ b ∈ f.Channel, b < 256

instance (f : Frame) : Decidable f.WF := by
  unfold Frame.WF; infer_instance

/-- Value `nopFrame` from `bin.go`. -/
def nopFrame : Frame := ⟨protoNop, 0, []⟩

/-- Big-endian encoding of `n` into `w` bytes (`binary.BigEndian`):
the value actually encoded is `n % 256 ^ w`. -/
def beEncode : Nat → Nat → List Nat
  | 0, _ => []
  | w + 1, n => beEncode w (n / 256) ++ [n % 256]

/-- Big-endian decoding of a byte list. -/
def beDecode (l : List Nat) : Nat :=
  l.foldl (fun a b => 256 * a + b) 0

/-- Errors the codec can raise.  `eof` is Go's `io.EOF` (also produced for an
empty `Close` frame), `unexpectedEof` is `io.ErrUnexpectedEOF`, `tooLarge`
is the `"string length too large"` protocol error carrying the declared
length, `closedErr` is `"connection closed: %s"` carrying the channel text
of a non-empty `Close` frame. -/
inductive Err where
  | eof
  | unexpectedEof
  | tooLarge (declared : Nat)
  | closedErr (channel : List Nat)
  deriving DecidableEq, Repr

/-- Model of `io.ReadFull` on a stream: succeed iff at least `n` bytes remain,
consuming exactly `n`; with an empty stream and `n > 0` report `EOF`,
with a short non-empty stream report `ErrUnexpectedEOF` (all remaining
bytes are consumed by the short read). -/
def takeExact (n : Nat) (input : List Nat) : Except Err (List Nat) × List Nat :=
  if n ≤ input.length then (.ok (input.take n), input.drop n)
  else if input.isEmpty then (.error .eof, [])
  else (.error .unexpectedEof, [])

/-- Function `writeBytes` from `bin.go`: emit `uint16(len(message))` big-endian —
note the Go cast truncates the length modulo `2 ^ 16` — then the message
bytes themselves, unconditionally. -/
def writeBytes (message : List Nat) : List Nat :=
  beEncode 2 message.length ++ message

/-- Function `readBytes` from `bin.go`: read a 2-byte big-endian length, reject it
when it exceeds `MaxChannelNameLength` (before any buffer of that size is
allocated), then read exactly that many bytes. -/
def readBytes (input : List Nat) : Except Err (List Nat) × List Nat :=
  match takeExact 2 input with
  | (.error e, rest) => (.error e, rest)
  | (.ok lenBytes, rest) =>
    let strLen := beDecode lenBytes
    if strLen > MaxChannelNameLength then (.error (.tooLarge strLen), rest)
    else takeExact strLen rest

/-- The size of the buffer `make([]byte, strLen)` allocates during
`readBytes`, or `none` when `readBytes` fails before reaching the
allocation.  Mirrors `readBytes` step for step. -/
def readBytesAlloc (input : List Nat) : Option Nat :=
  match takeExact 2 input with
  | (.error _, _) => none
  | (.ok lenBytes, _) =>
    let strLen := beDecode lenBytes
    if strLen > MaxChannelNameLength then none
    else some strLen

/-- Function `writeFrame` from `bin.go`: type byte, 8-byte big-endian connection id,
then the length-prefixed channel. -/
def writeFrame (f : Frame) : List Nat :=
  [f.type_] ++ beEncode 8 f.ConnectionID ++ writeBytes f.Channel

/-- Function `readFrame` from `bin.go`: read the control byte, the 8-byte id and the
channel; a `Close` frame is turned into an error after the whole frame has
been consumed — `io.EOF` when its channel is empty, otherwise the
`"connection closed"` error carrying the channel text. -/
def readFrame (input : List Nat) : Except Err Frame × List Nat :=
  match takeExact 1 input with
  | (.error e, rest) => (.error e, rest)
  | (.ok typeBytes, rest) =>
    match takeExact 8 rest with
    | (.error e, rest2) => (.error e, rest2)
    | (.ok idBytes, rest2) =>
      match readBytes rest2 with
      | (.error e, rest3) => (.error e, rest3)
      | (.ok channelBytes, rest3) =>
        let f : Frame := ⟨beDecode typeBytes, beDecode idBytes, channelBytes⟩
        if f.type_ = protoClose then
          if channelBytes.isEmpty then (.error .eof, rest3)
          else (.error (.closedErr channelBytes), rest3)
        else (.ok f, rest3)

/-! Managed connection: `probe` (the managed-connection file of
`libraries/router`)

`probe` sets a short deadline on the transport, writes the Nop frame through
the managed `writeFrame` (which refuses when the connection is already
closed), and then returns whether a plain `readFrame` on the transport
succeeded.  The transport-level outcomes are inputs of the model: whether
the managed connection was closed, whether the transport accepted the
write, and which bytes (if any) arrived before the deadline expired
(`none` models a peer that never answers: the read times out). -/

structure ProbeEnv where
  connClosed : Bool
  writeOk : Bool
  response : Option (List Nat)
  deriving DecidableEq, Repr

/-- Method `routerConnection.probe`: `writeFrame(&nopFrame)` failing (closed
connection or failed transport write) yields `false`; otherwise the result
is whether `readFrame` returned a nil error before the deadline. -/
def probe (env : ProbeEnv) : Bool :=
  if env.connClosed then false
  else if env.writeOk = false then false
  else
    match env.response with
    | none => false
    | some bytes =>
      match readFrame bytes with
      | (Except.ok _, _) => true
      | (Except.error _, _) => false

/-! Dialer client: `Client.Dial` (`libraries/router/client.go`) -/

deriving instance DecidableEq for Except

inductive DialErr where
  | transport (e : Err)
  | invalidResponse
  deriving DecidableEq, Repr

/-- Outcome of `Client.Dial` after the transport is open and the Dial frame
was written: either the transport (modelled by the unread remainder of its
incoming stream) or an error; `closedTransport` records whether `Dial`
called `Close` on the transport on that path (the source never does). -/
structure DialOutcome where
  result : Except DialErr (List Nat)
  closedTransport : Bool
  deriving DecidableEq, Repr

/-- Body of `Client.Dial` after the Dial frame was written: read one frame;
on a read error fail; if the frame is not `Bridge` fail with the
`"invalid response"` error; otherwise hand the transport to the caller.
No path closes the transport. -/
def clientDial (response : List Nat) : DialOutcome :=
  match readFrame response with
  | (Except.error e, _) => ⟨Except.error (DialErr.transport e), false⟩
  | (Except.ok f, restBytes) =>
    if f.type_ = protoBridge then ⟨Except.ok restBytes, false⟩
    else ⟨Except.error DialErr.invalidResponse, false⟩

/-! Listener client control loop (`Listener.spawnController`,
`libraries/router/client.go`) -/

inductive ControlAction where
  | replyNop
  | spawnBridge (connectionID : Nat)
  deriving DecidableEq, Repr

/-- One iteration of `Listener.spawnController` after a frame was read
successfully: a `Nop` frame is answered with `Nop`, and the
bridge-completion task is spawned when the frame is `Bridge` *and*
`listener.acceptorCount() > 0`. -/
def spawnControllerStep (f : Frame) (activeAcceptors : Nat) : List ControlAction :=
  (if f.type_ = protoNop then [ControlAction.replyNop] else []) ++
  (if f.type_ = protoBridge ∧ 0 < activeAcceptors then
    [ControlAction.spawnBridge f.ConnectionID]
   else [])

/-! Router Listen handling (`Router.handleListen`,
`libraries/router/router.go`)

The registry (`receiverTable`) is a map from channel to the holder's
control connection; channels and connections are identified by `Nat`
tokens.  `closedConns` records the connections on which `close()` has been
called.  The probe result of the current holder is an input. -/

def lookupChan : List (Nat × Nat) → Nat → Option Nat
  | [], _ => none
  | (c, h) :: rest, ch => if c = ch then some h else lookupChan rest ch

/-- Map assignment `receiverTable[channel] = conn`. -/
def bindChan : List (Nat × Nat) → Nat → Nat → List (Nat × Nat)
  | [], ch, conn => [(ch, conn)]
  | (c, h) :: rest, ch, conn =>
    if c = ch then (c, conn) :: rest else (c, h) :: bindChan rest ch conn

/-- Map deletion `delete(receiverTable, channel)`. -/
def removeChan (tbl : List (Nat × Nat)) (ch : Nat) : List (Nat × Nat) :=
  tbl.filter (fun p => p.1 ≠ ch)

structure ListenState where
  receiverTable : List (Nat × Nat)
  closedConns : List Nat
  deriving DecidableEq, Repr

inductive ListenReg where
  | busy
  | bound
  deriving DecidableEq, Repr

/-- The locked registration section of `Router.handleListen`: if the
channel has a holder, probe it; on a successful probe fail with the
channel-busy error leaving the state untouched, otherwise `close()` the
holder and rebind; an unbound channel is bound directly. -/
def handleListenReg (s : ListenState) (channel conn : Nat) (probeOk : Bool) :
    ListenReg × ListenState :=
  match lookupChan s.receiverTable channel with
  | some holder =>
    if probeOk then (ListenReg.busy, s)
    else
      (ListenReg.bound,
       { receiverTable := bindChan s.receiverTable channel conn,
         closedConns := holder :: s.closedConns })
  | none =>
    (ListenReg.bound,
     { s with receiverTable := bindChan s.receiverTable channel conn })

/-- The deferred cleanup of `Router.handleListen`: remove the binding only
when the registry still maps the channel to this same connection. -/
def handleListenCleanup (s : ListenState) (channel conn : Nat) : ListenState :=
  if lookupChan s.receiverTable channel = some conn then
    { s with receiverTable := removeChan s.receiverTable channel }
  else s

/-! Router inflight table (`Router.handleDial` / `Router.handleBridge`,
`libraries/router/router.go`)

Only the id discipline matters for the inflight-table invariant, so the
state keeps the `uint64` counter (`% 2 ^ 64` on increment), the set of ids
currently in the table, and — as ghost history — every id ever inserted,
in insertion order. -/

inductive RouterEvent where
  | dialAlloc
  | bridgeRemove (id : Nat)
  | dialCleanup (id : Nat)
  deriving DecidableEq, Repr

structure InflightState where
  nextConnectionID : Nat
  inflightIDs : List Nat
  insertedIDs : List Nat
  deriving DecidableEq, Repr

/-- One registry-lock critical section touching the inflight table:
`dialAlloc` is `handleDial`'s `connectionID := nextConnectionID;
nextConnectionID++; inflightTable[connectionID] = dialConnection`;
`bridgeRemove` is `handleBridge`'s `delete(inflightTable, id)`;
`dialCleanup` is the dial handler's deferred `delete(inflightTable, id)`. -/
def inflightStep (s : InflightState) : RouterEvent → InflightState
  | RouterEvent.dialAlloc =>
    { nextConnectionID := (s.nextConnectionID + 1) % 2 ^ 64,
      inflightIDs := s.nextConnectionID :: s.inflightIDs,
      insertedIDs := s.insertedIDs ++ [s.nextConnectionID] }
  | RouterEvent.bridgeRemove id =>
    { s with inflightIDs := s.inflightIDs.filter (fun x => x ≠ id) }
  | RouterEvent.dialCleanup id =>
    { s with inflightIDs := s.inflightIDs.filter (fun x => x ≠ id) }

/-- A Router run over its inflight table, from the freshly constructed
Router (`nextConnectionID = 0`, empty table). -/
def inflightRun (events : List RouterEvent) : InflightState :=
  events.foldl inflightStep ⟨0, [], []⟩

def countAllocs : List RouterEvent → Nat
  | [] => 0
  | RouterEvent.dialAlloc :: rest => countAllocs rest + 1
  | _ :: rest => countAllocs rest

/-! Lock discipline (`Router.handleListen` / `handleDial` /
`handleBridge`, `libraries/router/router.go`)

Each handler is abstracted to its sequence of atomic actions: registry
lock acquire/release, O(1) table operations, and transport I/O (frame
writes, frame reads, the probe — itself a frame write plus a frame read —
connection closes, and the bridge copy loops). -/

inductive RAction where
  | lockMu
  | unlockMu
  | ioProbe
  | ioClose
  | ioWriteFrame
  | ioReadFrame
  | ioCopy
  | tableOp
  deriving DecidableEq, Repr

def ioAction : RAction → Bool
  | RAction.ioProbe => true
  | RAction.ioClose => true
  | RAction.ioWriteFrame => true
  | RAction.ioReadFrame => true
  | RAction.ioCopy => true
  | _ => false

/-- Trace of `Router.handleListen`: lock; when the channel has a holder, probe it
(I/O) and either return busy (unlock) or close the holder (I/O), bind and
unlock; when unbound, bind and unlock.  Except on the busy path, the
deferred cleanup later re-locks for its O(1) table check. -/
def handleListenTrace (holderExists probeOk : Bool) : List RAction :=
  if holderExists ∧ probeOk then
    [RAction.lockMu, RAction.ioProbe, RAction.unlockMu]
  else if holderExists then
    [RAction.lockMu, RAction.ioProbe, RAction.ioClose, RAction.tableOp,
     RAction.unlockMu] ++
    [RAction.lockMu, RAction.tableOp, RAction.unlockMu]
  else
    [RAction.lockMu, RAction.tableOp, RAction.unlockMu] ++
    [RAction.lockMu, RAction.tableOp, RAction.unlockMu]

/-- Trace of `Router.handleDial`: lock; look the channel up; either unlock and fail,
or allocate the id, insert, unlock, and only then write the Bridge frame on
the control connection (closing it when the write fails); the deferred
delete re-locks. -/
def handleDialTrace (channelExists controlWriteOk : Bool) : List RAction :=
  if channelExists = false then
    [RAction.lockMu, RAction.tableOp, RAction.unlockMu]
  else
    [RAction.lockMu, RAction.tableOp, RAction.tableOp, RAction.unlockMu] ++
    (if controlWriteOk then [RAction.ioWriteFrame]
     else [RAction.ioWriteFrame, RAction.ioClose]) ++
    [RAction.lockMu, RAction.tableOp, RAction.unlockMu]

/-- Trace of `Router.handleBridge`: lock; look up and delete the inflight entry;
unlock; all frame writes, the copy loops and the closes happen after the
unlock. -/
def handleBridgeTrace (idInflight : Bool) : List RAction :=
  [RAction.lockMu, RAction.tableOp, RAction.tableOp, RAction.unlockMu] ++
  (if idInflight then
    [RAction.ioWriteFrame, RAction.ioWriteFrame, RAction.ioCopy,
     RAction.ioCopy, RAction.ioClose, RAction.ioClose]
   else [])

def ioUnderLockAux : List RAction → Nat → Bool
  | [], _ => false
  | a :: rest, depth =>
    match a with
    | RAction.lockMu => ioUnderLockAux rest (depth + 1)
    | RAction.unlockMu => ioUnderLockAux rest (depth - 1)
    | _ => (ioAction a && decide (0 < depth)) || ioUnderLockAux rest depth

/-- Whether a trace performs transport I/O somewhere between acquiring the
registry lock and releasing it. -/
def ioUnderLock (trace : List RAction) : Bool :=
  ioUnderLockAux trace 0

/-- Test fixture: a frame whose channel is longer than a 16-bit length
field can describe. -/
def bigChannelFrame : Frame := ⟨0, 0, List.replicate 65536 0⟩

theorem beEncode_length (w n : Nat) : (beEncode w n).length = w := by
  induction w generalizing n with
  | zero => rfl
  | succ w ih => simp [beEncode, ih]

theorem beDecode_append (l₁ l₂ : List Nat) :
    beDecode (l₁ ++ l₂) = l₂.foldl (fun a b => 256 * a + b) (beDecode l₁) := by
  simp [beDecode, List.foldl_append]

theorem beDecode_beEncode (w n : Nat) :
    beDecode (beEncode w n) = n % 256 ^ w := by
  induction w generalizing n with
  | zero => simp [beEncode, beDecode, Nat.mod_one]
  | succ w ih =>
    have h : beDecode (beEncode w (n / 256) ++ [n % 256]) =
        256 * beDecode (beEncode w (n / 256)) + n % 256 := by
      rw [beDecode_append]; rfl
    rw [beEncode, h, ih]
    have h256 : (256 : Nat) ^ (w + 1) = 256 * 256 ^ w := by ring
    rw [h256, Nat.mod_mul]
    ring

theorem beDecode_beEncode_of_lt {w n : Nat} (h : n < 256 ^ w) :
    beDecode (beEncode w n) = n := by
  rw [beDecode_beEncode, Nat.mod_eq_of_lt h]

theorem takeExact_append (l rest : List Nat) :
    takeExact l.length (l ++ rest) = (.ok l, rest) := by
  unfold takeExact
  rw [if_pos (by simp)]
  simp

theorem takeExact_of_len (n : Nat) (l rest : List Nat) (h : l.length = n) :
    takeExact n (l ++ rest) = (.ok l, rest) := by
  subst h; exact takeExact_append l rest

theorem beDecode_singleton (b : Nat) : beDecode [b] = b := by
  simp [beDecode]

theorem readBytes_writeBytes (ch rest : List Nat) (h : ch.length ≤ 256) :
    readBytes (writeBytes ch ++ rest) = (.ok ch, rest) := by
  have hlt : ch.length < 256 ^ 2 := lt_of_le_of_lt h (by norm_num)
  have hlen : beDecode (beEncode 2 ch.length) = ch.length :=
    beDecode_beEncode_of_lt hlt
  unfold writeBytes readBytes
  rw [List.append_assoc,
    takeExact_of_len 2 (beEncode 2 ch.length) (ch ++ rest) (beEncode_length 2 _)]
  simp only [hlen, MaxChannelNameLength]
  rw [if_neg (by omega), takeExact_of_len ch.length ch rest rfl]

theorem readFrame_writeFrame_aux (f : Frame) (rest : List Nat)
    (hid : f.ConnectionID < 2 ^ 64) (hch : f.Channel.length ≤ 256) :
    readFrame (writeFrame f ++ rest) =
      (if f.type_ = protoClose then
        (if f.Channel.isEmpty then (.error .eof, rest)
         else (.error (.closedErr f.Channel), rest))
       else (.ok f, rest)) := by
  have hid' : f.ConnectionID < 256 ^ 8 := by
    have : (2 : Nat) ^ 64 = 256 ^ 8 := by norm_num
    omega
  unfold writeFrame readFrame
  rw [List.append_assoc, List.append_assoc,
    takeExact_of_len 1 [f.type_] _ rfl]
  dsimp only
  rw [takeExact_of_len 8 (beEncode 8 f.ConnectionID) _ (beEncode_length 8 _)]
  dsimp only
  rw [readBytes_writeBytes f.Channel rest hch]
  dsimp only
  rw [beDecode_beEncode_of_lt hid', beDecode_singleton]

theorem beDecode_pair (a b : Nat) : beDecode [a, b] = 256 * a + b := by
  simp [beDecode]

theorem lookupChan_bindChan (tbl : List (Nat × Nat)) (ch conn : Nat) :
    lookupChan (bindChan tbl ch conn) ch = some conn := by
  induction tbl with
  | nil => simp [bindChan, lookupChan]
  | cons p rest ih =>
    obtain ⟨c, h⟩ := p
    by_cases hc : c = ch
    · simp [bindChan, lookupChan, hc]
    · simp [bindChan, lookupChan, hc, ih]

theorem lookupChan_removeChan (tbl : List (Nat × Nat)) (ch : Nat) :
    lookupChan (removeChan tbl ch) ch = none := by
  induction tbl with
  | nil => simp [removeChan, lookupChan]
  | cons p rest ih =>
    obtain ⟨c, h⟩ := p
    by_cases hc : c = ch
    · simpa [removeChan, List.filter, hc] using ih
    · simpa [removeChan, List.filter, hc, lookupChan] using ih

theorem inflight_aux (events : List RouterEvent) :
    ∀ (s : InflightState) (k : Nat),
      s.insertedIDs = List.range k → s.nextConnectionID = k % 2 ^ 64 →
      k + countAllocs events ≤ 2 ^ 64 →
      (events.foldl inflightStep s).insertedIDs =
        List.range (k + countAllocs events) ∧
      (events.foldl inflightStep s).nextConnectionID =
        (k + countAllocs events) % 2 ^ 64 := by
  induction events with
  | nil =>
    intro s k h1 h2 h3
    simpa [countAllocs] using ⟨h1, h2⟩
  | cons e rest ih =>
    intro s k h1 h2 h3
    cases e with
    | dialAlloc =>
      have hcnt : countAllocs (RouterEvent.dialAlloc :: rest) =
          countAllocs rest + 1 := rfl
      rw [hcnt] at h3
      have hk : k < 2 ^ 64 := by omega
      have hmod : k % 2 ^ 64 = k := Nat.mod_eq_of_lt hk
      have hset : (inflightStep s RouterEvent.dialAlloc).insertedIDs =
          List.range (k + 1) := by
        show s.insertedIDs ++ [s.nextConnectionID] = List.range (k + 1)
        rw [h1, h2, hmod, List.range_succ]
      have hnext : (inflightStep s RouterEvent.dialAlloc).nextConnectionID =
          (k + 1) % 2 ^ 64 := by
        simp only [inflightStep, h2]
        omega
      have := ih (inflightStep s RouterEvent.dialAlloc) (k + 1) hset hnext
        (by omega)
      simpa [hcnt, List.foldl, Nat.add_comm, Nat.add_assoc, Nat.add_left_comm]
        using this
    | bridgeRemove id =>
      have hcnt : countAllocs (RouterEvent.bridgeRemove id :: rest) =
          countAllocs rest := rfl
      have := ih (inflightStep s (RouterEvent.bridgeRemove id)) k
        (by simpa [inflightStep] using h1)
        (by simpa [inflightStep] using h2) (by omega)
      simpa [hcnt, List.foldl] using this
    | dialCleanup id =>
      have hcnt : countAllocs (RouterEvent.dialCleanup id :: rest) =
          countAllocs rest := rfl
      have := ih (inflightStep s (RouterEvent.dialCleanup id)) k
        (by simpa [inflightStep] using h1)
        (by simpa [inflightStep] using h2) (by omega)
      simpa [hcnt, List.foldl] using this

/-- C1 counterexample: the claim fails as stated.  The `Close` frame with
an empty channel is a frame with `channel.length ≤ 256`, yet reading back
the bytes produced by writing it does not report success: `readFrame`
turns every `Close` frame into an error (`io.EOF` here). -/
theorem C1_counterexample :
    readFrame (writeFrame ⟨protoClose, 0, []⟩) ≠
      (Except.ok (⟨protoClose, 0, []⟩ : Frame), ([] : List Nat)) := by
  decide

/-- C1 (amended): for every frame whose type byte is not `Close`, whose
connection id fits `uint64` and whose channel is at most 256 bytes long,
reading back the bytes produced by writing the frame yields the frame
again — same type byte, same connection id, same channel — and the read
reports success. -/
theorem C1_codec_roundtrip (f : Frame) (hid : f.ConnectionID < 2 ^ 64)
    (hch : f.Channel.length ≤ 256) (hty : f.type_ ≠ protoClose) :
    readFrame (writeFrame f) = (Except.ok f, ([] : List Nat)) := by
  have h := readFrame_writeFrame_aux f [] hid hch
  rw [List.append_nil, if_neg hty] at h
  exact h

/-- C1 witness: the round-trip theorem applied to the Nop frame. -/
theorem C1_codec_roundtrip_witness :
    readFrame (writeFrame nopFrame) = (Except.ok nopFrame, ([] : List Nat)) :=
  C1_codec_roundtrip nopFrame (by decide) (by decide) (by decide)

/-- C9: reading a well-formed `Close` frame never succeeds: after the
whole frame has been consumed (the leftover stream is exactly what follows
the frame), `readFrame` reports `io.EOF` when the channel is empty and the
`"connection closed"` error carrying the channel text otherwise; an empty
`Close` frame is therefore indistinguishable from a cleanly closed
transport, which also reports `io.EOF`. -/
theorem C9_close_frame_is_error (id : Nat) (ch rest : List Nat)
    (hid : id < 2 ^ 64) (hch : ch.length ≤ 256) :
    readFrame (writeFrame ⟨protoClose, id, ch⟩ ++ rest) =
      ((if ch.isEmpty then Except.error Err.eof
        else Except.error (Err.closedErr ch)), rest) ∧
    (readFrame ([] : List Nat)).1 = Except.error Err.eof := by
  constructor
  · have h := readFrame_writeFrame_aux ⟨protoClose, id, ch⟩ rest hid hch
    rw [if_pos rfl] at h
    rw [h]
    by_cases he : ch.isEmpty <;> simp [he]
  · rfl

/-- C9 witness: a `Close` frame with channel byte 97 followed by one more
stream byte, and the empty-stream case. -/
theorem C9_close_frame_is_error_witness :
    readFrame (writeFrame ⟨protoClose, 0, [97]⟩ ++ [5]) =
      ((if ([97] : List Nat).isEmpty then Except.error Err.eof
        else Except.error (Err.closedErr [97])), [5]) ∧
    (readFrame ([] : List Nat)).1 = Except.error Err.eof :=
  C9_close_frame_is_error 0 [97] [5] (by decide) (by decide)

/-- C5: every id inserted into the inflight table is the value of the
counter at its allocation (the ids inserted along any Router run are
exactly `0, 1, 2, …` in order), so — as long as the run performs at most
`2 ^ 64` allocations and the counter cannot wrap — every inserted id is
fresh and an id, once removed by bridge matching or by the dial handler's
cleanup, is never reinserted (no id is ever inserted twice). -/
theorem C5_inflight_ids_fresh (events : List RouterEvent)
    (h : countAllocs events ≤ 2 ^ 64) :
    (inflightRun events).insertedIDs = List.range (countAllocs events) ∧
    (inflightRun events).insertedIDs.Nodup := by
  have h0 : (⟨0, [], []⟩ : InflightState).insertedIDs = List.range 0 := rfl
  have h1 : (⟨0, [], []⟩ : InflightState).nextConnectionID = 0 % 2 ^ 64 := rfl
  have := inflight_aux events ⟨0, [], []⟩ 0 h0 h1 (by omega)
  rw [Nat.zero_add] at this
  refine ⟨this.1, ?_⟩
  rw [show (inflightRun events) = events.foldl inflightStep ⟨0, [], []⟩ from rfl,
    this.1]
  exact List.nodup_range _

/-- C5 witness: a run with three allocations, one of which is matched by a
bridge in between, inserts exactly the ids 0, 1, 2. -/
theorem C5_inflight_ids_fresh_witness :
    (inflightRun [RouterEvent.dialAlloc, RouterEvent.dialAlloc,
        RouterEvent.bridgeRemove 0, RouterEvent.dialAlloc]).insertedIDs =
      List.range (countAllocs [RouterEvent.dialAlloc, RouterEvent.dialAlloc,
        RouterEvent.bridgeRemove 0, RouterEvent.dialAlloc]) ∧
    (inflightRun [RouterEvent.dialAlloc, RouterEvent.dialAlloc,
        RouterEvent.bridgeRemove 0, RouterEvent.dialAlloc]).insertedIDs.Nodup :=
  C5_inflight_ids_fresh _ (by decide)

/-- C4: when the incoming 16-bit length field decodes to a value above
256, `readBytes` fails with the `"string length too large"` protocol error
and the buffer allocation (`make([]byte, strLen)`) is never reached — and
on every path that does allocate, the buffer is at most 256 bytes. -/
theorem C4_oversize_channel_safe (b0 b1 : Nat) (rest : List Nat)
    (hb0 : b0 < 256) (hb1 : b1 < 256) (hlen : 256 < 256 * b0 + b1) :
    (readBytes (b0 :: b1 :: rest)).1 =
      Except.error (Err.tooLarge (256 * b0 + b1)) ∧
    readBytesAlloc (b0 :: b1 :: rest) = none ∧
    (∀ input n, readBytesAlloc input = some n → n ≤ 256) := by
  have htk : takeExact 2 (b0 :: b1 :: rest) = (Except.ok [b0, b1], rest) :=
    takeExact_of_len 2 [b0, b1] rest rfl
  refine ⟨?_, ?_, ?_⟩
  · unfold readBytes
    rw [htk]
    dsimp only
    rw [beDecode_pair, if_pos (by unfold MaxChannelNameLength; omega)]
  · unfold readBytesAlloc
    rw [htk]
    dsimp only
    rw [beDecode_pair, if_pos (by unfold MaxChannelNameLength; omega)]
  · intro input n hsome
    unfold readBytesAlloc at hsome
    split at hsome
    · exact absurd hsome (by simp)
    · dsimp only at hsome
      split at hsome
      · exact absurd hsome (by simp)
      · rename_i hle
        unfold MaxChannelNameLength at hle
        injection hsome with hn
        omega

/-- C4 witness: length field 01 01 (declared length 257) with no further
bytes. -/
theorem C4_oversize_channel_safe_witness :
    (readBytes [1, 1]).1 = Except.error (Err.tooLarge (256 * 1 + 1)) ∧
    readBytesAlloc [1, 1] = none ∧
    (∀ input n, readBytesAlloc input = some n → n ≤ 256) :=
  C4_oversize_channel_safe 1 1 [] (by decide) (by decide) (by decide)

/-- C10: the codec's write enforces no channel cap.  For a channel of
length 257 to 65535 the writer still emits a full encoding, and the reader
rejects exactly that declared length with the protocol error.  For a
channel longer than 65535 bytes the emitted 16-bit length field (bytes 9
and 10 of the encoding) holds the length reduced modulo `2 ^ 16` while all
channel bytes (everything from byte 11 on) are still written, so the
length field no longer describes the channel that follows it. -/
theorem C10_write_unchecked (f : Frame) (hid : f.ConnectionID < 2 ^ 64) :
    (257 ≤ f.Channel.length → f.Channel.length ≤ 65535 →
      (readFrame (writeFrame f)).1 =
        Except.error (Err.tooLarge f.Channel.length)) ∧
    (65535 < f.Channel.length →
      beDecode (((writeFrame f).drop 9).take 2) = f.Channel.length % 2 ^ 16 ∧
      (writeFrame f).drop 11 = f.Channel ∧
      f.Channel.length % 2 ^ 16 ≠ f.Channel.length) := by
  have hid' : f.ConnectionID < 256 ^ 8 := by
    have h64 : (2 : Nat) ^ 64 = 256 ^ 8 := by norm_num
    omega
  constructor
  · intro h257 h65535
    have hlt : f.Channel.length < 256 ^ 2 := by
      have h2 : (256 : Nat) ^ 2 = 65536 := by norm_num
      omega
    have hdec : beDecode (beEncode 2 f.Channel.length) = f.Channel.length :=
      beDecode_beEncode_of_lt hlt
    unfold writeFrame readFrame
    rw [List.append_assoc, takeExact_of_len 1 [f.type_] _ rfl]
    dsimp only
    rw [takeExact_of_len 8 (beEncode 8 f.ConnectionID) _ (beEncode_length 8 _)]
    dsimp only
    unfold readBytes writeBytes
    rw [takeExact_of_len 2 (beEncode 2 f.Channel.length) _
      (beEncode_length 2 _)]
    dsimp only
    rw [hdec, if_pos (by unfold MaxChannelNameLength; omega)]
  · intro hbig
    have h9 : ([f.type_] ++ beEncode 8 f.ConnectionID).length = 9 := by
      simp [beEncode_length]
    have h11 : (([f.type_] ++ beEncode 8 f.ConnectionID) ++
        beEncode 2 f.Channel.length).length = 11 := by
      simp [beEncode_length]
    have hw : writeFrame f =
        ([f.type_] ++ beEncode 8 f.ConnectionID) ++
          (beEncode 2 f.Channel.length ++ f.Channel) := rfl
    have h16 : (2 : Nat) ^ 16 = 256 ^ 2 := by norm_num
    refine ⟨?_, ?_, ?_⟩
    · rw [hw, List.drop_left' h9, List.take_left' (beEncode_length 2 _),
        beDecode_beEncode, h16]
    · rw [hw, ← List.append_assoc, List.drop_left' h11]
    · have hm : f.Channel.length % 2 ^ 16 < 2 ^ 16 :=
        Nat.mod_lt _ (by norm_num)
      have h65536 : (2 : Nat) ^ 16 = 65536 := by norm_num
      omega

/-- C10 witness: a 257-byte channel is written in full and rejected by the
reader; a 65536-byte channel is written with a wrapped length field of 0
while all 65536 channel bytes follow. -/
theorem C10_write_unchecked_witness :
    ((readFrame (writeFrame ⟨0, 0, List.replicate 257 0⟩)).1 =
      Except.error (Err.tooLarge (List.replicate 257 (0 : Nat)).length)) ∧
    (beDecode (((writeFrame bigChannelFrame).drop 9).take 2) =
        bigChannelFrame.Channel.length % 2 ^ 16 ∧
      (writeFrame bigChannelFrame).drop 11 = bigChannelFrame.Channel ∧
      bigChannelFrame.Channel.length % 2 ^ 16 ≠
        bigChannelFrame.Channel.length) :=
  ⟨(C10_write_unchecked ⟨0, 0, List.replicate 257 0⟩ (by decide)).1
      (by rw [List.length_replicate]) (by rw [List.length_replicate]; omega),
   (C10_write_unchecked bigChannelFrame (by decide)).2
      (by show 65535 < (List.replicate 65536 (0 : Nat)).length
          rw [List.length_replicate]; omega)⟩

/-- C3: a Listen for an already-bound channel probes the holder; a
successful probe fails the new Listen with the channel-busy error leaving
the registry (and the set of closed connections) unchanged; a failed probe
closes the old holder and rebinds the channel to the new connection.  The
deferred cleanup removes the binding exactly when the registry still maps
the channel to that same connection, and leaves the state untouched
otherwise. -/
theorem C3_listen_rebind (s : ListenState) (channel conn holder : Nat) :
    (lookupChan s.receiverTable channel = some holder →
      handleListenReg s channel conn true = (ListenReg.busy, s)) ∧
    (lookupChan s.receiverTable channel = some holder →
      (handleListenReg s channel conn false).1 = ListenReg.bound ∧
      lookupChan (handleListenReg s channel conn false).2.receiverTable
        channel = some conn ∧
      holder ∈ (handleListenReg s channel conn false).2.closedConns) ∧
    (lookupChan s.receiverTable channel = some conn →
      lookupChan (handleListenCleanup s channel conn).receiverTable channel =
        none) ∧
    (lookupChan s.receiverTable channel ≠ some conn →
      handleListenCleanup s channel conn = s) := by
  refine ⟨?_, ?_, ?_, ?_⟩
  · intro h
    unfold handleListenReg
    rw [h]
    rfl
  · intro h
    unfold handleListenReg
    rw [h]
    refine ⟨rfl, ?_, ?_⟩
    · dsimp only
      exact lookupChan_bindChan s.receiverTable channel conn
    · dsimp only
      exact List.mem_cons_self holder s.closedConns
  · intro h
    unfold handleListenCleanup
    rw [if_pos h]
    exact lookupChan_removeChan s.receiverTable channel
  · intro h
    unfold handleListenCleanup
    rw [if_neg h]

/-- C3 witness: a registry binding channel 1 to connection 10.  A probe
success leaves it untouched and reports busy; a probe failure rebinds to
connection 20 and closes 10; the cleanup for connection 20 removes the
binding when 20 still holds the channel and does nothing when 10 does. -/
theorem C3_listen_rebind_witness :
    (handleListenReg ⟨[(1, 10)], []⟩ 1 20 true =
      (ListenReg.busy, ⟨[(1, 10)], []⟩)) ∧
    ((handleListenReg ⟨[(1, 10)], []⟩ 1 20 false).1 = ListenReg.bound ∧
      lookupChan (handleListenReg ⟨[(1, 10)], []⟩ 1 20 false).2.receiverTable
        1 = some 20 ∧
      10 ∈ (handleListenReg ⟨[(1, 10)], []⟩ 1 20 false).2.closedConns) ∧
    (lookupChan (handleListenCleanup ⟨[(1, 20)], []⟩ 1 20).receiverTable 1 =
      none) ∧
    handleListenCleanup ⟨[(1, 10)], []⟩ 1 20 = ⟨[(1, 10)], []⟩ :=
  ⟨(C3_listen_rebind ⟨[(1, 10)], []⟩ 1 20 10).1 (by decide),
   (C3_listen_rebind ⟨[(1, 10)], []⟩ 1 20 10).2.1 (by decide),
   (C3_listen_rebind ⟨[(1, 20)], []⟩ 1 20 0).2.2.1 (by decide),
   (C3_listen_rebind ⟨[(1, 10)], []⟩ 1 20 0).2.2.2 (by decide)⟩

/-- C6: `probe()` returns `true` exactly when the managed connection was
not closed, the transport accepted the Nop write, and some bytes arrived
before the deadline that `readFrame` parses successfully; in particular a
peer that accepts the write but never answers (no response before the
deadline) makes `probe()` report the connection unhealthy. -/
theorem C6_probe_semantics (env : ProbeEnv) :
    (probe env = true ↔
      env.connClosed = false ∧ env.writeOk = true ∧
      ∃ bytes f restBytes, env.response = some bytes ∧
        readFrame bytes = (Except.ok f, restBytes)) ∧
    (env.response = none → probe env = false) := by
  obtain ⟨cc, wo, resp⟩ := env
  constructor
  · cases cc
    · cases wo
      · simp [probe]
      · cases resp with
        | none => simp [probe]
        | some bytes =>
          rcases hr : readFrame bytes with ⟨r, rest2⟩
          cases r with
          | ok f => simp [probe, hr]
          | error e => simp [probe, hr]
    · simp [probe]
  · intro h
    subst h
    cases cc <;> cases wo <;> rfl

/-- C6 witness: a healthy connection whose peer answers the probe with a
Nop frame is reported healthy, and one whose peer never answers before the
deadline is reported unhealthy. -/
theorem C6_probe_semantics_witness :
    probe ⟨false, true, some (writeFrame nopFrame)⟩ = true ∧
    probe ⟨false, true, none⟩ = false :=
  ⟨(C6_probe_semantics ⟨false, true, some (writeFrame nopFrame)⟩).1.mpr
      ⟨rfl, rfl, writeFrame nopFrame, nopFrame, [], rfl, by decide⟩,
   (C6_probe_semantics ⟨false, true, none⟩).2 rfl⟩

/-- C7 counterexample: the claim fails as stated.  When the single frame
read after the Dial handshake is not a `Bridge` frame (here: a Nop frame),
`Client.Dial` does fail, but the transport is not closed — the source
returns the error without ever calling `Close`. -/
theorem C7_counterexample :
    ¬ ((clientDial (writeFrame nopFrame)).closedTransport = true) := by
  decide

/-- C7 (amended): after opening the transport and writing the Dial frame,
`Client.Dial` reads exactly one frame.  If it is not a `Bridge` frame the
dial fails with the `"invalid response"` protocol error but the transport
is left open (it is never closed); if it is a `Bridge` frame the transport
is returned to the caller unchanged, positioned right after that one
frame.  No path through the read-response code closes the transport. -/
theorem C7_dial_response (response : List Nat) :
    (∀ f restBytes, readFrame response = (Except.ok f, restBytes) →
      f.type_ ≠ protoBridge →
      clientDial response = ⟨Except.error DialErr.invalidResponse, false⟩) ∧
    (∀ f restBytes, readFrame response = (Except.ok f, restBytes) →
      f.type_ = protoBridge →
      clientDial response = ⟨Except.ok restBytes, false⟩) ∧
    (clientDial response).closedTransport = false := by
  refine ⟨?_, ?_, ?_⟩
  · intro f restBytes h hne
    unfold clientDial
    rw [h]
    dsimp only
    rw [if_neg hne]
  · intro f restBytes h he
    unfold clientDial
    rw [h]
    dsimp only
    rw [if_pos he]
  · unfold clientDial
    rcases hr : readFrame response with ⟨r, rest2⟩
    cases r with
    | error e => rfl
    | ok f =>
      dsimp only
      by_cases hb : f.type_ = protoBridge
      · rw [if_pos hb]
      · rw [if_neg hb]

/-- C7 witness: a Nop response makes the dial fail with the protocol error
and leaves the transport open; a Bridge response hands the transport back
with the remainder of the stream. -/
theorem C7_dial_response_witness :
    clientDial (writeFrame nopFrame) =
      ⟨Except.error DialErr.invalidResponse, false⟩ ∧
    clientDial (writeFrame ⟨protoBridge, 0, []⟩ ++ [9]) =
      ⟨Except.ok [9], false⟩ :=
  ⟨(C7_dial_response (writeFrame nopFrame)).1 nopFrame [] (by decide)
      (by decide),
   (C7_dial_response (writeFrame ⟨protoBridge, 0, []⟩ ++ [9])).2.1
      ⟨protoBridge, 0, []⟩ [9] (by decide) rfl⟩

/-- C2 counterexample: the claim fails as stated.  A `Bridge` command
that the listener client's control loop receives while no caller is inside
`Accept()` (`acceptorCount() = 0`) spawns no bridge-completion task: the
spawn is gated on `listener.acceptorCount() > 0`, so that bridge command
is dropped. -/
theorem C2_counterexample :
    ¬ (ControlAction.spawnBridge 7 ∈
        spawnControllerStep ⟨protoBridge, 7, []⟩ 0) := by
  decide

/-- C2 (amended): the listener client's control loop spawns the
bridge-completion task for a received frame exactly when the frame is a
`Bridge` command *and* at least one caller is currently blocked inside
`Accept()`; a Bridge command arriving when no acceptor is waiting spawns
nothing. -/
theorem C2_bridge_spawn_gated (f : Frame) (activeAcceptors : Nat) :
    ControlAction.spawnBridge f.ConnectionID ∈
        spawnControllerStep f activeAcceptors ↔
      f.type_ = protoBridge ∧ 0 < activeAcceptors := by
  unfold spawnControllerStep
  rw [List.mem_append]
  constructor
  · intro h
    cases h with
    | inl h =>
      by_cases hn : f.type_ = protoNop
      · rw [if_pos hn] at h
        exact absurd h (by simp)
      · rw [if_neg hn] at h
        exact absurd h (by simp)
    | inr h =>
      by_cases hb : f.type_ = protoBridge ∧ 0 < activeAcceptors
      · exact hb
      · rw [if_neg hb] at h
        exact absurd h (by simp)
  · intro h
    right
    rw [if_pos h]
    exact List.mem_singleton_self _

/-- C2 witness: with one active acceptor, a Bridge command with id 5 does
spawn its completion task. -/
theorem C2_bridge_spawn_gated_witness :
    ControlAction.spawnBridge 5 ∈ spawnControllerStep ⟨protoBridge, 5, []⟩ 1 :=
  (C2_bridge_spawn_gated ⟨protoBridge, 5, []⟩ 1).mpr ⟨rfl, by decide⟩

/-- C8 counterexample: the claim fails as stated.  When a Listen arrives
for a channel that already has a live holder, `Router.handleListen` probes
the holder — a frame write plus a frame read on the holder's transport —
strictly between acquiring the registry lock and releasing it. -/
theorem C8_counterexample :
    ioUnderLock (handleListenTrace true true) = true := by
  decide

/-- C8 (amended): `Router.handleDial` and `Router.handleBridge` perform no
transport I/O while holding the registry lock, but `Router.handleListen`
performs I/O under the lock exactly when the channel is already bound: it
probes the current holder (and, on probe failure, closes it) while the
lock is held. -/
theorem C8_lock_discipline :
    (∀ channelExists controlWriteOk : Bool,
      ioUnderLock (handleDialTrace channelExists controlWriteOk) = false) ∧
    (∀ idInflight : Bool,
      ioUnderLock (handleBridgeTrace idInflight) = false) ∧
    (∀ holderExists probeOk : Bool,
      ioUnderLock (handleListenTrace holderExists probeOk) = holderExists) := by
  refine ⟨?_, ?_, ?_⟩
  · intro a b
    cases a <;> cases b <;> rfl
  · intro a
    cases a <;> rfl
  · intro a b
    cases a <;> cases b <;> rfl

/-- C8 witness: the dial path with a registered channel and a successful
control write stays I/O-free under the lock; the listen path over a bound
channel does I/O under the lock. -/
theorem C8_lock_discipline_witness :
    ioUnderLock (handleDialTrace true true) = false ∧
    ioUnderLock (handleListenTrace true false) = true :=
  ⟨C8_lock_discipline.1 true true, C8_lock_discipline.2.2 true false⟩

end YukinoNet
